import Mathlib

/-!
Verification of the company-name resolution core of `app.py`
(`search_companies_house` and `process_companies`).

String values are modelled as Lean `String`s (ASCII inputs); the Python
string primitives used by the code (`strip`, `upper`, `endswith`,
`startswith`, `in`, `replace`, `split`, slicing) are re-implemented below
by structural recursion over the underlying character lists so that every
definition evaluates inside the kernel.
-/

/-- ASCII whitespace as recognised by Python `str.strip` / `str.split`. -/
def isPySpace (c : Char) : Bool :=
  c == ' ' || c == '\t' || c == '\n' || c == '\r' || c == '\x0b' || c == '\x0c'

/-- `chPre pat l` : `pat` is a leading run of `l` (Python `startswith`). -/
def chPre : List Char → List Char → Bool
  | [], _ => true
  | _ :: _, [] => false
  | a :: as, b :: bs => a == b && chPre as bs

/-- `chSuf pat l` : `pat` is a trailing run of `l` (Python `endswith`). -/
def chSuf (pat l : List Char) : Bool :=
  chPre pat.reverse l.reverse

/-- `chSub pat l` : `pat` occurs contiguously inside `l` (Python `in`). -/
def chSub (pat : List Char) : List Char → Bool
  | [] => chPre pat []
  | c :: rest => chPre pat (c :: rest) || chSub pat rest

/-- Python `str.strip()`: remove leading and trailing whitespace. -/
def stripList (l : List Char) : List Char :=
  ((l.dropWhile isPySpace).reverse.dropWhile isPySpace).reverse

def pyStrip (s : String) : String := ⟨stripList s.data⟩

/-- Python `str.upper()` on ASCII text. -/
def pyUpper (s : String) : String := ⟨s.data.map Char.toUpper⟩

/-- Python slice `s[:n]` for `0 ≤ n`. -/
def strTake (s : String) (n : Nat) : String := ⟨s.data.take n⟩

/-- Python slice `s[n:]`. -/
def strDrop (s : String) (n : Nat) : String := ⟨s.data.drop n⟩

def pyEndsWith (s t : String) : Bool := chSuf t.data s.data

def pyStartsWith (s t : String) : Bool := chPre t.data s.data

/-- `pyContains s t` : Python `t in s`. -/
def pyContains (s t : String) : Bool := chSub t.data s.data

/-- Python `str.replace(pat, to)` for a non-empty `pat`: scan left to
right, replacing each non-overlapping occurrence.  The `Nat` argument is
fuel; `l.length` always suffices because each step consumes a character. -/
def replaceGo (pat rep : List Char) : Nat → List Char → List Char
  | _, [] => []
  | 0, l => l
  | Nat.succ n, c :: cs =>
    if chPre pat (c :: cs) then rep ++ replaceGo pat rep n ((c :: cs).drop pat.length)
    else c :: replaceGo pat rep n cs

def pyReplace (s pat rep : String) : String :=
  ⟨replaceGo pat.data rep.data s.data.length s.data⟩

/-- Python `str.split()` (no separator): split on whitespace runs and drop
empty pieces. -/
def wordsGo (cur : List Char) : List Char → List String
  | [] => if cur.isEmpty then [] else [⟨cur.reverse⟩]
  | c :: cs =>
    if isPySpace c then
      (if cur.isEmpty then wordsGo [] cs else ⟨cur.reverse⟩ :: wordsGo [] cs)
    else wordsGo (c :: cur) cs

def pyWords (s : String) : List String := wordsGo [] s.data

/-- Order-preserving de-duplication keeping first occurrences, mirroring
`[x for x in xs if not (x in seen or seen.add(x))]`. -/
def dedupGo (seen : List String) : List String → List String
  | [] => []
  | x :: xs => if x ∈ seen then dedupGo seen xs else x :: dedupGo (x :: seen) xs

def dedupFirst (l : List String) : List String := dedupGo [] l

/-! ### The data model -/

/-- One record of the registry's `items` array, with the six fields the
code reads via `item.get(key, '')` (missing fields default to `""`). -/
structure Item where
  title : String
  company_number : String
  company_status : String
  company_type : String
  address_snippet : String
  date_of_creation : String
deriving DecidableEq, Repr

def defaultItem : Item := Item.mk "" "" "" "" "" ""

/-- The suffix list of `app.py` (line 72), in source order. -/
def suffixesList : List String :=
  ["LIMITED", "LTD", "LTD.", "PLC", "PLC.", "LLP", "LLP.",
   "LIMITED LIABILITY PARTNERSHIP", "GROUP", "HOLDINGS", "HOLDING"]

/-- One iteration of the suffix-stripping loop (lines 75-79): a trailing
space-delimited match is checked first, then a direct suffix match;
whichever fires, the matched occurrence is cut off and the rest stripped. -/
def stripOneSuffix (acc : String) (suf : String) : String :=
  if pyEndsWith acc (" " ++ suf) then
    pyStrip (strTake acc (acc.data.length - (suf.data.length + 1)))
  else if pyEndsWith acc suf then
    pyStrip (strTake acc (acc.data.length - suf.data.length))
  else acc

/-- `name_clean` after the whole suffix loop (lines 71-79). -/
def nameClean (original : String) : String :=
  List.foldl stripOneSuffix (pyUpper original) suffixesList

/-- `clean_no_punct` (line 92): keep only alphanumeric characters and
spaces of `name_clean`. -/
def cleanNoPunct (original : String) : String :=
  ⟨(nameClean original).data.filter (fun c => c.isAlphanum || c == ' ')⟩

/-- `search_variations` as assembled in lines 64-104 from the (already
stripped, non-empty) `original_name`, de-duplicated keeping first
occurrences. -/
def searchVariations (original : String) : List String :=
  dedupFirst
    ([original]
     ++ (if nameClean original ≠ pyUpper original then
          [nameClean original, nameClean original ++ " LIMITED",
           nameClean original ++ " LTD"]
         else [])
     ++ (if pyStartsWith (nameClean original) "THE " then
          [pyStrip (strDrop (nameClean original) 4)]
         else [])
     ++ (if cleanNoPunct original ≠ nameClean original then [cleanNoPunct original] else [])
     ++ (if pyContains (cleanNoPunct original) " AND " then
          [pyReplace (cleanNoPunct original) " AND " " & "]
         else [])
     ++ (if pyContains (cleanNoPunct original) " & " then
          [pyReplace (cleanNoPunct original) " & " " AND "]
         else []))

/-! ### The scorer (lines 124-158) -/

/-- The per-string cleaning of the scorer (lines 135-143): delete every
occurrence of every suffix token anywhere in the string, then strip. -/
def cleanForScore (s : String) : String :=
  pyStrip (suffixesList.foldl (fun acc suf => pyReplace acc suf "") s)

/-- `len(api_words & search_words)`: the number of distinct words common
to both whitespace-split word sets. -/
def commonCount (a b : String) : Nat :=
  ((dedupFirst (pyWords a)).filter (fun w => (pyWords b).contains w)).length

/-- The score cascade of lines 129-158, applied to the raw (trimmed)
input name and one registry item. -/
def scoreMatch (orig : String) (it : Item) : Nat :=
  if pyUpper it.title = pyUpper orig then 100
  else if pyContains (pyUpper orig) (pyUpper it.title)
          || pyContains (pyUpper it.title) (pyUpper orig) then 90
  else if cleanForScore (pyUpper it.title) = cleanForScore (pyUpper orig) then 85
  else if pyStartsWith (cleanForScore (pyUpper it.title))
            (strTake (cleanForScore (pyUpper orig)) 10)
          || pyStartsWith (cleanForScore (pyUpper orig))
            (strTake (cleanForScore (pyUpper it.title)) 10) then 75
  else if 0 < commonCount (cleanForScore (pyUpper it.title)) (cleanForScore (pyUpper orig)) then
    60 + commonCount (cleanForScore (pyUpper it.title)) (cleanForScore (pyUpper orig)) * 5
  else 50

example : scoreMatch "ACME LTD" (Item.mk "ACME LTD" "" "" "" "" "") = 100 := by decide
example : scoreMatch "ACME LTD" (Item.mk "ACME PLC" "" "" "" "" "") = 85 := by decide
example : searchVariations "ACME LTD" = ["ACME LTD", "ACME", "ACME LIMITED"] := by decide

/-! ### The resolver loop (lines 106-197) -/

/-- The outcome of one `requests.get` call against the registry, as the
code observes it: an HTTP response with a status code and the parsed
`items` array, or a raised `requests.exceptions.RequestException`, or any
other raised exception (e.g. a JSON parse failure). -/
inductive RegistryAnswer where
  | http (status : Nat) (items : List Item)
  | raiseRequest (msg : String)
  | raiseOther (msg : String)
deriving DecidableEq, Repr

/-- The two exception classes caught at lines 194-197. -/
inductive PyExc where
  | network (msg : String)
  | unexpected (msg : String)
deriving DecidableEq, Repr

/-- The mutable locals of the variation loop (lines 107-110):
`best_match`, `best_score`, `all_items`, `search_term_used`. -/
structure LoopState where
  best_match : Option Item
  best_score : Nat
  all_items : List Item
  search_term_used : String
deriving DecidableEq, Repr

def initState : LoopState := LoopState.mk none 0 [] ""

/-- Scoring one item (lines 124-163): on a strictly better score, record
the item, the score and the search term that produced it. -/
def scoreStep (orig q : String) (st : LoopState) (it : Item) : LoopState :=
  if st.best_score < scoreMatch orig it then
    LoopState.mk (some it) (scoreMatch orig it) st.all_items q
  else st

def scoreItems (orig q : String) (items : List Item) (st : LoopState) : LoopState :=
  items.foldl (scoreStep orig q) st

/-- Handling one 200-response (lines 118-163): extend `all_items` with
the returned items, then score each of them. -/
def applyItems (orig q : String) (items : List Item) (st : LoopState) : LoopState :=
  scoreItems orig q items
    (LoopState.mk st.best_match st.best_score (st.all_items ++ items) st.search_term_used)

/-- The state after one HTTP response (lines 118-163): only a 200
response is consumed; anything else leaves the loop state unchanged. -/
def stepState (orig q : String) (status : Nat) (items : List Item) (st : LoopState) : LoopState :=
  if status == 200 then applyItems orig q items st else st

/-- The `for search_term in search_variations[:6]` loop (lines 112-168).
Returns the final loop state, the list of queries actually issued (in
order), and the exception that aborted the loop, if any.  A non-200
response contributes nothing; after each variation the loop breaks once
`best_score >= 80`. -/
def runVariants (orig : String) (reg : String → RegistryAnswer) :
    List String → LoopState → LoopState × List String × Option PyExc
  | [], st => (st, [], none)
  | q :: qs, st =>
    match reg q with
    | RegistryAnswer.raiseRequest m => (st, [q], some (PyExc.network m))
    | RegistryAnswer.raiseOther m => (st, [q], some (PyExc.unexpected m))
    | RegistryAnswer.http status items =>
      if 80 ≤ (stepState orig q status items st).best_score then
        (stepState orig q status items st, [q], none)
      else
        ((runVariants orig reg qs (stepState orig q status items st)).1,
         q :: (runVariants orig reg qs (stepState orig q status items st)).2.1,
         (runVariants orig reg qs (stepState orig q status items st)).2.2)

/-- The full loop run of `search_companies_house` for a given raw name:
the variations are computed from the stripped name and capped at 6. -/
def resolveRun (name : String) (reg : String → RegistryAnswer) :
    LoopState × List String × Option PyExc :=
  runVariants (pyStrip name) reg ((searchVariations (pyStrip name)).take 6) initState

def resolveState (name : String) (reg : String → RegistryAnswer) : LoopState :=
  (resolveRun name reg).1

def resolveQueries (name : String) (reg : String → RegistryAnswer) : List String :=
  (resolveRun name reg).2.1

def resolveErr (name : String) (reg : String → RegistryAnswer) : Option PyExc :=
  (resolveRun name reg).2.2

/-- `search_term_used or 'All variations'` (line 189). -/
def fallbackTerm (t : String) : String := if t = "" then "All variations" else t

/-- The dictionary returned by `search_companies_house`: `failed msg` is
the `{'error': msg}` shape of lines 62, 195 and 197; `matched` the
dictionary of lines 172-182; `unmatched` the one of lines 184-192 (which
carries `original_name` as `company_name`). -/
inductive SearchResult where
  | failed (msg : String)
  | matched (item : Item) (score : Nat) (term : String) (total : Nat)
  | unmatched (original : String) (bestScore : Nat) (term : String) (total : Nat)
deriving DecidableEq, Repr

/-- `search_companies_house` (lines 57-197), with the HTTP layer
abstracted as `reg : query → RegistryAnswer`. -/
def search_companies_house (name : String) (reg : String → RegistryAnswer) : SearchResult :=
  if pyStrip name = "" then SearchResult.failed "Empty company name"
  else
    match resolveRun name reg with
    | (_, _, some (PyExc.network m)) => SearchResult.failed ("Network error: " ++ m)
    | (_, _, some (PyExc.unexpected m)) => SearchResult.failed ("Unexpected error: " ++ m)
    | (st, _, none) =>
      if st.best_match.isSome ∧ 65 ≤ st.best_score then
        SearchResult.matched (st.best_match.getD defaultItem) st.best_score
          st.search_term_used st.all_items.length
      else
        SearchResult.unmatched (pyStrip name) st.best_score
          (fallbackTerm st.search_term_used) st.all_items.length

/-- The items a query contributed to the loop: those of a 200 response,
nothing otherwise. -/
def effItems (reg : String → RegistryAnswer) (q : String) : List Item :=
  match reg q with
  | RegistryAnswer.http status items => if status == 200 then items else []
  | _ => []

/-- `reg q` is an HTTP response (no exception raised). -/
def noRaise : RegistryAnswer → Bool
  | RegistryAnswer.http _ _ => true
  | _ => false

/-- The exception a call outcome raises, if any. -/
def excOf : RegistryAnswer → Option PyExc
  | RegistryAnswer.http _ _ => none
  | RegistryAnswer.raiseRequest m => some (PyExc.network m)
  | RegistryAnswer.raiseOther m => some (PyExc.unexpected m)

/-- The error message recorded for an exception: the f-strings of lines
195 and 197. -/
def excMsg : PyExc → String
  | PyExc.network m => "Network error: " ++ m
  | PyExc.unexpected m => "Unexpected error: " ++ m

/-- Replace every non-200 response by an empty 200 response. -/
def sanitizeReg (reg : String → RegistryAnswer) : String → RegistryAnswer :=
  fun q =>
    match reg q with
    | RegistryAnswer.http status items =>
      if status == 200 then RegistryAnswer.http status items
      else RegistryAnswer.http 200 []
    | other => other

/-! ### The batch runner (lines 200-264) -/

/-- One input row: the column-to-value mapping of the tabular source. -/
abbrev Row := List (String × String)

/-- `str(row[column_name])`, total because the column is chosen from the
file's own column list. -/
def getCol (r : Row) (c : String) : String := ((r.lookup c).getD "")

/-- One output row (lines 242-254): the original row plus the fixed
`ch_*` keys. -/
structure ResultRow where
  base : Row
  ch_company_name : String
  ch_company_number : String
  ch_company_status : String
  ch_company_type : String
  ch_address : String
  ch_date_of_creation : String
  ch_match_score : Nat
  ch_error : String
  ch_search_used : String
  ch_matches_found : Nat
deriving DecidableEq, Repr

/-- The `result_row.update(...)` of lines 242-254, with each
`result.get(key, default)` resolved per result shape. -/
def mkResultRow (r : Row) (res : SearchResult) : ResultRow :=
  match res with
  | SearchResult.failed msg =>
    ResultRow.mk r "" "" "" "" "" "" 0 msg "" 0
  | SearchResult.matched it sc term total =>
    ResultRow.mk r it.title it.company_number it.company_status it.company_type
      it.address_snippet it.date_of_creation sc "" term total
  | SearchResult.unmatched orig b term total =>
    ResultRow.mk r orig "NOT FOUND" "NOT FOUND" "" "" "" b
      ("No good match found (best score: " ++ toString b ++ "%)") term total

/-- The row loop of `process_companies` (lines 217-258).  `cancelAt` is
the first row index at which the cooperative stop flag reads true; the
flag is checked once, before each row is processed. -/
def processGo (col : String) (reg : String → RegistryAnswer) (cancelAt : Nat) :
    Nat → List Row → List ResultRow
  | _, [] => []
  | i, r :: rs =>
    if cancelAt ≤ i then []
    else
      mkResultRow r (search_companies_house (getCol r col) reg)
        :: processGo col reg cancelAt (i + 1) rs

/-- `process_companies` (lines 200-264), with the HTTP layer abstracted
as `reg` and the stop flag as `cancelAt`. -/
def process_companies (rows : List Row) (col : String) (reg : String → RegistryAnswer)
    (cancelAt : Nat) : List ResultRow :=
  processGo col reg cancelAt 0 rows

/-! ### Concrete test fixtures

Small registry stubs and items used to instantiate the theorems below on
explicit inputs. -/

/-- Loop-state invariant: either nothing has been scored yet
(`best_match = none`, `best_score = 0`) or some item is recorded with a
score of at least 50. -/
def stateOk (st : LoopState) : Prop :=
  (st.best_match = none ∧ st.best_score = 0) ∨
  (∃ it, st.best_match = some it ∧ 50 ≤ st.best_score)

def itemC1 : Item := Item.mk "ACME LTD" "01234567" "active" "ltd" "1 High St" "2001-01-01"

/-- A registry answering 401 (Unauthorized) on the first variation and a
perfect match on the second. -/
def regC1 : String → RegistryAnswer := fun q =>
  if q = "ACME LTD" then RegistryAnswer.http 401 []
  else if q = "ACME" then RegistryAnswer.http 200 [itemC1]
  else RegistryAnswer.http 200 []

def itemC2 : Item := Item.mk "A B C D E F G H I J" "" "" "" "" ""

def itemC3 : Item := Item.mk "BBC STUDIOS LIMITED" "01234567" "active" "" "" ""

/-- A registry answering every query with one exact-title item. -/
def regC3 : String → RegistryAnswer := fun _ => RegistryAnswer.http 200 [itemC3]

def itemC4 : Item := Item.mk "ACME & CO PLC" "" "" "" "" ""

/-- A registry answering only the third variation of "ACME & CO LTD"
with an item scoring 85. -/
def regC4 : String → RegistryAnswer := fun q =>
  if q = "ACME & CO LIMITED" then RegistryAnswer.http 200 [itemC4]
  else RegistryAnswer.http 200 []

def rowC8 : Row := [("name", "ACME LTD")]

/-- A registry that answers the first variation of "ACME LTD" with an
empty 200 response and raises an unexpected (non-transport) exception on
every other query — so the error occurs on the second issued query. -/
def regC8 : String → RegistryAnswer := fun q =>
  if q = "ACME LTD" then RegistryAnswer.http 200 []
  else RegistryAnswer.raiseOther "kaboom"

def itemC10 : Item := Item.mk "ZZZ QQQ WWW" "" "" "" "" ""

/-- A registry answering every query with one weakly-matching item. -/
def regC10 : String → RegistryAnswer := fun _ => RegistryAnswer.http 200 [itemC10]

/-! ### Helper lemmas -/

/-- Every branch of the score cascade yields at least 50. -/
theorem scoreMatch_ge_fifty (orig : String) (it : Item) : 50 ≤ scoreMatch orig it := by
  unfold scoreMatch
  repeat' split
  all_goals omega

theorem scoreStep_ok (orig q : String) (st : LoopState) (it : Item) (h : stateOk st) :
    stateOk (scoreStep orig q st it) := by
  unfold scoreStep
  split
  · exact Or.inr ⟨it, rfl, scoreMatch_ge_fifty orig it⟩
  · exact h

theorem scoreItems_ok (orig q : String) (items : List Item) :
    ∀ st : LoopState, stateOk st → stateOk (scoreItems orig q items st) := by
  induction items with
  | nil => intro st h; exact h
  | cons it rest ih =>
    intro st h
    exact ih (scoreStep orig q st it) (scoreStep_ok orig q st it h)

theorem applyItems_ok (orig q : String) (items : List Item) (st : LoopState)
    (h : stateOk st) : stateOk (applyItems orig q items st) :=
  scoreItems_ok orig q items _ h

theorem stepState_ok (orig q : String) (status : Nat) (items : List Item) (st : LoopState)
    (h : stateOk st) : stateOk (stepState orig q status items st) := by
  unfold stepState
  split
  · exact applyItems_ok orig q items st h
  · exact h

theorem runVariants_ok (orig : String) (reg : String → RegistryAnswer) :
    ∀ (V : List String) (st : LoopState), stateOk st → stateOk (runVariants orig reg V st).1 := by
  intro V
  induction V with
  | nil => intro st h; exact h
  | cons q qs ih =>
    intro st h
    cases hreg : reg q with
    | raiseRequest m => simp only [runVariants, hreg]; exact h
    | raiseOther m => simp only [runVariants, hreg]; exact h
    | http status items =>
      simp only [runVariants, hreg]
      split
      · exact stepState_ok orig q status items st h
      · exact ih _ (stepState_ok orig q status items st h)

theorem scoreStep_mono (orig q : String) (st : LoopState) (it : Item) :
    st.best_score ≤ (scoreStep orig q st it).best_score := by
  unfold scoreStep
  split
  · next h => exact Nat.le_of_lt h
  · exact Nat.le_refl _

theorem scoreItems_mono (orig q : String) (items : List Item) :
    ∀ st : LoopState, st.best_score ≤ (scoreItems orig q items st).best_score := by
  induction items with
  | nil => intro st; exact Nat.le_refl _
  | cons it rest ih =>
    intro st
    exact Nat.le_trans (scoreStep_mono orig q st it) (ih (scoreStep orig q st it))

theorem applyItems_mono (orig q : String) (items : List Item) (st : LoopState) :
    st.best_score ≤ (applyItems orig q items st).best_score := by
  unfold applyItems
  exact scoreItems_mono orig q items
    (LoopState.mk st.best_match st.best_score (st.all_items ++ items) st.search_term_used)

theorem stepState_mono (orig q : String) (status : Nat) (items : List Item) (st : LoopState) :
    st.best_score ≤ (stepState orig q status items st).best_score := by
  unfold stepState
  split
  · exact applyItems_mono orig q items st
  · exact Nat.le_refl _

theorem runVariants_mono (orig : String) (reg : String → RegistryAnswer) :
    ∀ (V : List String) (st : LoopState),
      st.best_score ≤ (runVariants orig reg V st).1.best_score := by
  intro V
  induction V with
  | nil => intro st; exact Nat.le_refl _
  | cons q qs ih =>
    intro st
    cases hreg : reg q with
    | raiseRequest m => simp only [runVariants, hreg]; exact Nat.le_refl _
    | raiseOther m => simp only [runVariants, hreg]; exact Nat.le_refl _
    | http status items =>
      simp only [runVariants, hreg]
      split
      · exact stepState_mono orig q status items st
      · exact Nat.le_trans (stepState_mono orig q status items st) (ih _)

/-- Scoring a non-empty item list drives `best_score` to at least 50. -/
theorem scoreItems_fifty (orig q : String) (it : Item) (rest : List Item) (st : LoopState) :
    50 ≤ (scoreItems orig q (it :: rest) st).best_score := by
  have h1 : 50 ≤ (scoreStep orig q st it).best_score := by
    unfold scoreStep
    split
    · exact scoreMatch_ge_fifty orig it
    · next h =>
      exact Nat.le_trans (scoreMatch_ge_fifty orig it) (Nat.le_of_not_lt h)
  exact Nat.le_trans h1 (scoreItems_mono orig q rest (scoreStep orig q st it))

theorem applyItems_nil (orig q : String) (st : LoopState) :
    applyItems orig q [] st = st := by
  cases st
  simp [applyItems, scoreItems]

/-- When no call raises, the loop finishes without an exception. -/
theorem runVariants_err_none (orig : String) (reg : String → RegistryAnswer)
    (hok : ∀ q, noRaise (reg q) = true) :
    ∀ (V : List String) (st : LoopState), (runVariants orig reg V st).2.2 = none := by
  intro V
  induction V with
  | nil => intro st; rfl
  | cons q qs ih =>
    intro st
    cases hreg : reg q with
    | raiseRequest m => have := hok q; rw [hreg] at this; simp [noRaise] at this
    | raiseOther m => have := hok q; rw [hreg] at this; simp [noRaise] at this
    | http status items =>
      simp only [runVariants, hreg]
      split
      · rfl
      · exact ih _

/-- If every issued query contributed no items (non-200 responses
included), the loop state is untouched. -/
theorem runVariants_id_of_empty (orig : String) (reg : String → RegistryAnswer) :
    ∀ (V : List String) (st : LoopState),
      (∀ q ∈ (runVariants orig reg V st).2.1, effItems reg q = []) →
      (runVariants orig reg V st).1 = st := by
  intro V
  induction V with
  | nil => intro st _; rfl
  | cons q qs ih =>
    intro st hq
    cases hreg : reg q with
    | raiseRequest m => simp only [runVariants, hreg]
    | raiseOther m => simp only [runVariants, hreg]
    | http status items =>
      have hqmem : q ∈ (runVariants orig reg (q :: qs) st).2.1 := by
        simp only [runVariants, hreg]
        split
        · exact List.mem_singleton.mpr rfl
        · exact List.mem_cons_self _ _
      have hstep : stepState orig q status items st = st := by
        unfold stepState
        split
        · next h200 =>
          have hq' := hq q hqmem
          simp [effItems, hreg, h200] at hq'
          rw [hq']
          exact applyItems_nil orig q st
        · rfl
      simp only [runVariants, hreg, hstep]
      split
      · rfl
      · next h80 =>
        apply ih
        intro q' hq'
        apply hq
        simp only [runVariants, hreg, hstep]
        rw [if_neg h80]
        exact List.mem_cons_of_mem q hq'

/-- A non-200 response behaves exactly like a 200 response with an empty
`items` array: replacing all of them changes nothing. -/
theorem runVariants_sanitize (orig : String) (reg : String → RegistryAnswer) :
    ∀ (V : List String) (st : LoopState),
      runVariants orig (sanitizeReg reg) V st = runVariants orig reg V st := by
  intro V
  induction V with
  | nil => intro st; rfl
  | cons q qs ih =>
    intro st
    cases hreg : reg q with
    | raiseRequest m =>
      have hs : sanitizeReg reg q = RegistryAnswer.raiseRequest m := by
        simp [sanitizeReg, hreg]
      simp only [runVariants, hreg, hs]
    | raiseOther m =>
      have hs : sanitizeReg reg q = RegistryAnswer.raiseOther m := by
        simp [sanitizeReg, hreg]
      simp only [runVariants, hreg, hs]
    | http status items =>
      by_cases h200 : (status == 200) = true
      · have hs : sanitizeReg reg q = RegistryAnswer.http status items := by
          simp [sanitizeReg, hreg, h200]
        simp only [runVariants, hreg, hs, ih]
      · have hs : sanitizeReg reg q = RegistryAnswer.http 200 [] := by
          simp [sanitizeReg, hreg, h200]
        have hL : stepState orig q 200 [] st = st := by
          unfold stepState
          rw [if_pos (by rfl)]
          exact applyItems_nil orig q st
        have hR : stepState orig q status items st = st := by
          unfold stepState
          rw [if_neg h200]
        simp only [runVariants, hreg, hs, hL, hR, ih]

/-- The issued queries are exactly a leading run of the variation list. -/
theorem runVariants_take (orig : String) (reg : String → RegistryAnswer) :
    ∀ (V : List String) (st : LoopState),
      V.take (runVariants orig reg V st).2.1.length = (runVariants orig reg V st).2.1 := by
  intro V
  induction V with
  | nil => intro st; rfl
  | cons q qs ih =>
    intro st
    cases hreg : reg q with
    | raiseRequest m => simp only [runVariants, hreg]; rfl
    | raiseOther m => simp only [runVariants, hreg]; rfl
    | http status items =>
      simp only [runVariants, hreg]
      split
      · rfl
      · simp only [List.length_cons, List.take_succ_cons, ih]

theorem runVariants_len_le (orig : String) (reg : String → RegistryAnswer)
    (V : List String) (st : LoopState) :
    (runVariants orig reg V st).2.1.length ≤ V.length := by
  have h := congrArg List.length (runVariants_take orig reg V st)
  rw [List.length_take] at h
  omega

/-- Replaying the loop on any proper leading run of the issued queries
reproduces an intermediate state: no exception had occurred there and the
running best score was still below 80 (otherwise the loop would already
have stopped). -/
theorem runVariants_replay (orig : String) (reg : String → RegistryAnswer) :
    ∀ (V : List String) (st : LoopState), st.best_score < 80 →
      ∀ k, k < (runVariants orig reg V st).2.1.length →
        (runVariants orig reg ((runVariants orig reg V st).2.1.take k) st).1.best_score < 80 ∧
        (runVariants orig reg ((runVariants orig reg V st).2.1.take k) st).2.2 = none := by
  intro V
  induction V with
  | nil => intro st _ k hk; simp [runVariants] at hk
  | cons q qs ih =>
    intro st hst k hk
    cases hreg : reg q with
    | raiseRequest m =>
      simp only [runVariants, hreg] at hk ⊢
      have hk0 : k = 0 := by simpa using Nat.lt_one_iff.mp hk
      subst hk0
      exact ⟨hst, rfl⟩
    | raiseOther m =>
      simp only [runVariants, hreg] at hk ⊢
      have hk0 : k = 0 := by simpa using Nat.lt_one_iff.mp hk
      subst hk0
      exact ⟨hst, rfl⟩
    | http status items =>
      simp only [runVariants, hreg] at hk ⊢
      by_cases h80 : 80 ≤ (stepState orig q status items st).best_score
      · rw [if_pos h80] at hk ⊢
        have hk0 : k = 0 := by simpa using Nat.lt_one_iff.mp hk
        subst hk0
        exact ⟨hst, rfl⟩
      · rw [if_neg h80] at hk ⊢
        cases k with
        | zero => exact ⟨hst, rfl⟩
        | succ j =>
          simp only [List.length_cons] at hk
          have hj : j < (runVariants orig reg qs (stepState orig q status items st)).2.1.length :=
            Nat.lt_of_succ_lt_succ hk
          have hrec := ih (stepState orig q status items st) (Nat.lt_of_not_le h80) j hj
          simp only [List.take_succ_cons, runVariants, hreg, if_neg h80]
          exact hrec

/-- If the loop finished without an exception yet issued fewer queries
than there were variations, it stopped because the best score had
reached 80. -/
theorem runVariants_stop (orig : String) (reg : String → RegistryAnswer) :
    ∀ (V : List String) (st : LoopState),
      (runVariants orig reg V st).2.2 = none →
      (runVariants orig reg V st).2.1.length < V.length →
      80 ≤ (runVariants orig reg V st).1.best_score := by
  intro V
  induction V with
  | nil => intro st _ hlen; simp [runVariants] at hlen
  | cons q qs ih =>
    intro st herr hlen
    cases hreg : reg q with
    | raiseRequest m =>
      simp only [runVariants, hreg] at herr
      exact Option.noConfusion herr
    | raiseOther m =>
      simp only [runVariants, hreg] at herr
      exact Option.noConfusion herr
    | http status items =>
      simp only [runVariants, hreg] at herr hlen ⊢
      by_cases h80 : 80 ≤ (stepState orig q status items st).best_score
      · rw [if_pos h80] at herr hlen ⊢
        exact h80
      · rw [if_neg h80] at herr hlen ⊢
        simp only [List.length_cons] at hlen
        exact ih _ herr (Nat.lt_of_succ_lt_succ hlen)

/-- If some issued query raised an exception, the loop aborted there
with exactly that exception: the raising query is the LAST query issued
(no further variants are queried) and every query before it returned an
HTTP response. -/
theorem runVariants_raise_abort (orig : String) (reg : String → RegistryAnswer) :
    ∀ (V : List String) (st : LoopState) (q : String) (e : PyExc),
      q ∈ (runVariants orig reg V st).2.1 →
      excOf (reg q) = some e →
      (runVariants orig reg V st).2.2 = some e ∧
      ∃ pre, (runVariants orig reg V st).2.1 = pre ++ [q] ∧
        ∀ p ∈ pre, excOf (reg p) = none := by
  intro V
  induction V with
  | nil => intro st q e hq _; simp [runVariants] at hq
  | cons q0 qs ih =>
    intro st q e hq he
    cases hreg : reg q0 with
    | raiseRequest m =>
      simp only [runVariants, hreg] at hq ⊢
      have hq0 : q = q0 := by simpa using hq
      subst hq0
      rw [hreg] at he
      simp only [excOf] at he
      exact ⟨he, [], rfl, fun p hp => absurd hp (List.not_mem_nil p)⟩
    | raiseOther m =>
      simp only [runVariants, hreg] at hq ⊢
      have hq0 : q = q0 := by simpa using hq
      subst hq0
      rw [hreg] at he
      simp only [excOf] at he
      exact ⟨he, [], rfl, fun p hp => absurd hp (List.not_mem_nil p)⟩
    | http status items =>
      simp only [runVariants, hreg] at hq ⊢
      by_cases h80 : 80 ≤ (stepState orig q0 status items st).best_score
      · rw [if_pos h80] at hq ⊢
        have hq0 : q = q0 := by simpa using hq
        subst hq0
        rw [hreg] at he
        simp [excOf] at he
      · rw [if_neg h80] at hq ⊢
        rcases List.mem_cons.mp hq with hq0 | hqs
        · subst hq0
          rw [hreg] at he
          simp [excOf] at he
        · obtain ⟨herr, pre, hpre, hall⟩ :=
            ih (stepState orig q0 status items st) q e hqs he
          refine ⟨herr, q0 :: pre, ?_, ?_⟩
          · rw [hpre]
            rfl
          · intro p hp
            rcases List.mem_cons.mp hp with hp0 | hp'
            · subst hp0
              rw [hreg]
              rfl
            · exact hall p hp'

theorem dataStrMk (l : List Char) : (String.mk l).data = l := rfl

theorem strExt {a b : String} (h : a.data = b.data) : a = b := by
  cases a
  cases b
  cases h
  rfl

theorem chPre_ex : ∀ (p l : List Char), chPre p l = true → ∃ r, l = p ++ r := by
  intro p
  induction p with
  | nil => intro l _; exact ⟨l, rfl⟩
  | cons a as ih =>
    intro l h
    cases l with
    | nil => simp [chPre] at h
    | cons b bs =>
      simp only [chPre, Bool.and_eq_true, beq_iff_eq] at h
      obtain ⟨hab, hpre⟩ := h
      obtain ⟨r, hr⟩ := ih bs hpre
      subst hab
      subst hr
      exact ⟨r, rfl⟩

theorem chSuf_ex (p l : List Char) (h : chSuf p l = true) : ∃ r, l = r ++ p := by
  obtain ⟨r, hr⟩ := chPre_ex p.reverse l.reverse h
  refine ⟨r.reverse, ?_⟩
  have h2 := congrArg List.reverse hr
  simpa [List.reverse_append] using h2

/-- Each iteration of the suffix loop removes at most one trailing
occurrence of its token: either the string is unchanged, or exactly one
trailing `" " ++ suf` is cut (checked first), or — only when no
space-delimited match exists — exactly one trailing `suf` is cut. -/
theorem stripOneSuffix_cases (s suf : String) :
    stripOneSuffix s suf = s ∨
    (∃ mid : String, s = mid ++ " " ++ suf ∧ stripOneSuffix s suf = pyStrip mid) ∨
    (pyEndsWith s (" " ++ suf) = false ∧
     ∃ mid : String, s = mid ++ suf ∧ stripOneSuffix s suf = pyStrip mid) := by
  by_cases h1 : pyEndsWith s (" " ++ suf) = true
  · right; left
    obtain ⟨r, hr⟩ := chSuf_ex (" " ++ suf).data s.data h1
    have hr' : s.data = r ++ (' ' :: suf.data) := hr
    refine ⟨⟨r⟩, ?_, ?_⟩
    · apply strExt
      show s.data = (r ++ [' ']) ++ suf.data
      rw [hr']
      simp
    · unfold stripOneSuffix
      rw [if_pos h1]
      apply congrArg pyStrip
      apply strExt
      show s.data.take (s.data.length - (suf.data.length + 1)) = r
      rw [hr']
      have hlen : (r ++ (' ' :: suf.data)).length - (suf.data.length + 1) = r.length := by
        simp
      rw [hlen]
      exact List.take_left r (' ' :: suf.data)
  · by_cases h2 : pyEndsWith s suf = true
    · right; right
      refine ⟨by simpa using h1, ?_⟩
      obtain ⟨r, hr⟩ := chSuf_ex suf.data s.data h2
      refine ⟨⟨r⟩, ?_, ?_⟩
      · apply strExt
        show s.data = r ++ suf.data
        exact hr
      · unfold stripOneSuffix
        rw [if_neg (by simpa using h1), if_pos h2]
        apply congrArg pyStrip
        apply strExt
        show s.data.take (s.data.length - suf.data.length) = r
        rw [hr]
        have hlen : (r ++ suf.data).length - suf.data.length = r.length := by simp
        rw [hlen]
        exact List.take_left r suf.data
    · left
      unfold stripOneSuffix
      rw [if_neg (by simpa using h1), if_neg (by simpa using h2)]

theorem dedupFirst_cons (x : String) (l : List String) :
    dedupFirst (x :: l) = x :: dedupGo [x] l := by
  simp [dedupFirst, dedupGo]

/-- The variation list always begins with the original (trimmed) name. -/
theorem searchVariations_cons (o : String) : ∃ t, searchVariations o = o :: t := by
  unfold searchVariations
  simp only [List.singleton_append, List.cons_append]
  rw [dedupFirst_cons]
  exact ⟨_, rfl⟩

/-- The row loop started at index `i` processes exactly the first
`cancelAt - i` rows. -/
theorem processGo_take (col : String) (reg : String → RegistryAnswer) (cancelAt : Nat) :
    ∀ (rows : List Row) (i : Nat),
      processGo col reg cancelAt i rows =
        (rows.take (cancelAt - i)).map
          (fun r => mkResultRow r (search_companies_house (getCol r col) reg)) := by
  intro rows
  induction rows with
  | nil => intro i; simp [processGo]
  | cons r rs ih =>
    intro i
    by_cases h : cancelAt ≤ i
    · have h0 : cancelAt - i = 0 := by omega
      simp [processGo, h, h0]
    · have h1 : cancelAt - i = (cancelAt - (i + 1)) + 1 := by omega
      rw [processGo, if_neg h, h1, List.take_succ_cons, List.map_cons, ih (i + 1)]

/-- When the loop finished without an exception, the result of
`search_companies_house` is the final accept/reject decision over the
final loop state. -/
theorem search_eq_of_none (name : String) (reg : String → RegistryAnswer)
    (hname : pyStrip name ≠ "") (herr : resolveErr name reg = none) :
    search_companies_house name reg =
      if (resolveState name reg).best_match.isSome ∧ 65 ≤ (resolveState name reg).best_score then
        SearchResult.matched ((resolveState name reg).best_match.getD defaultItem)
          (resolveState name reg).best_score (resolveState name reg).search_term_used
          (resolveState name reg).all_items.length
      else
        SearchResult.unmatched (pyStrip name) (resolveState name reg).best_score
          (fallbackTerm (resolveState name reg).search_term_used)
          (resolveState name reg).all_items.length := by
  have hrun : resolveRun name reg =
      (resolveState name reg, resolveQueries name reg, (none : Option PyExc)) := by
    rw [← herr]
    rfl
  unfold search_companies_house
  rw [if_neg hname, hrun]

/-- A transport exception on the very first variation aborts the whole
resolution with the network failure dictionary after a single query. -/
theorem search_transport_first (name : String) (reg : String → RegistryAnswer) (m : String)
    (hname : pyStrip name ≠ "")
    (hreg : reg (pyStrip name) = RegistryAnswer.raiseRequest m) :
    search_companies_house name reg = SearchResult.failed ("Network error: " ++ m) ∧
    resolveQueries name reg = [pyStrip name] := by
  obtain ⟨t, ht⟩ := searchVariations_cons (pyStrip name)
  have htake : (searchVariations (pyStrip name)).take 6 = pyStrip name :: t.take 5 := by
    rw [ht]
    rfl
  have hrun : resolveRun name reg =
      (initState, [pyStrip name], some (PyExc.network m)) := by
    unfold resolveRun
    rw [htake]
    simp only [runVariants, hreg]
  constructor
  · unfold search_companies_house
    rw [if_neg hname, hrun]
  · unfold resolveQueries
    rw [hrun]

/-- If some issued query returned at least one (consumed) item, the
final best score is at least 50. -/
theorem runVariants_fifty (orig : String) (reg : String → RegistryAnswer) :
    ∀ (V : List String) (st : LoopState),
      ∀ q ∈ (runVariants orig reg V st).2.1, effItems reg q ≠ [] →
        50 ≤ (runVariants orig reg V st).1.best_score := by
  intro V
  induction V with
  | nil => intro st q hq _; simp [runVariants] at hq
  | cons q0 qs ih =>
    intro st q hq hne
    cases hreg : reg q0 with
    | raiseRequest m =>
      simp only [runVariants, hreg] at hq
      have hq0 : q = q0 := by simpa using hq
      subst hq0
      exact absurd (by simp [effItems, hreg]) hne
    | raiseOther m =>
      simp only [runVariants, hreg] at hq
      have hq0 : q = q0 := by simpa using hq
      subst hq0
      exact absurd (by simp [effItems, hreg]) hne
    | http status items =>
      simp only [runVariants, hreg] at hq ⊢
      by_cases h80 : 80 ≤ (stepState orig q0 status items st).best_score
      · rw [if_pos h80] at hq ⊢
        show 50 ≤ (stepState orig q0 status items st).best_score
        omega
      · rw [if_neg h80] at hq ⊢
        rcases List.mem_cons.mp hq with hq0 | hqs
        · subst hq0
          have h50 : 50 ≤ (stepState orig q status items st).best_score := by
            unfold stepState
            by_cases h200 : (status == 200) = true
            · rw [if_pos h200]
              have hit : items ≠ [] := by
                intro hcon
                apply hne
                simp [effItems, hreg, h200, hcon]
              cases items with
              | nil => exact absurd rfl hit
              | cons a as =>
                unfold applyItems
                exact scoreItems_fifty orig q a as _
            · rw [if_neg h200]
              exact absurd (by simp [effItems, hreg, h200]) hne
          exact Nat.le_trans h50 (runVariants_mono orig reg qs _)
        · exact ih _ q hqs hne

/-! ### Claims -/

set_option maxHeartbeats 1600000 in
/-- Claim C1, counterexample: a 401 (Unauthorized) response on the first
variation does not fail the resolution — the next variation is still
queried (two queries issued) and the resolution succeeds with a match,
instead of failing with an Unauthorized reason. -/
theorem c1_counterexample :
    regC1 "ACME LTD" = RegistryAnswer.http 401 [] ∧
    search_companies_house "ACME LTD" regC1 = SearchResult.matched itemC1 100 "ACME" 1 ∧
    resolveQueries "ACME LTD" regC1 = ["ACME LTD", "ACME"] := by
  decide

/-- Claim C1, amended: a 401/403/429 (indeed any non-200) response never
fails the resolution and never stops the variation loop; it is treated
exactly like a 200 response with an empty `items` array.  Replacing every
non-200 response by an empty 200 response leaves the result unchanged. -/
theorem c1_status_ignored (name : String) (reg : String → RegistryAnswer) :
    search_companies_house name (sanitizeReg reg) = search_companies_house name reg := by
  unfold search_companies_house resolveRun
  rw [runVariants_sanitize]

/-- Claim C2, counterexample: the word-overlap rule is not clamped — two
names sharing ten distinct words score 60 + 10 × 5 = 110 > 100. -/
theorem c2_counterexample :
    scoreMatch "B A C D E F G H I J" itemC2 = 110 ∧
    100 < scoreMatch "B A C D E F G H I J" itemC2 := by
  decide

/-- Claim C2, amended: the score is always at least 50 and is either one
of the fixed rule values 100/90/85/75/50 or the unclamped word-overlap
value `60 + k * 5` for `k ≥ 1` common words — which may exceed 100. -/
theorem c2_score_range (orig : String) (it : Item) :
    50 ≤ scoreMatch orig it ∧
    (scoreMatch orig it = 100 ∨ scoreMatch orig it = 90 ∨ scoreMatch orig it = 85 ∨
     scoreMatch orig it = 75 ∨ scoreMatch orig it = 50 ∨
     ∃ k, 1 ≤ k ∧ scoreMatch orig it = 60 + k * 5) := by
  refine ⟨scoreMatch_ge_fifty orig it, ?_⟩
  unfold scoreMatch
  split
  · exact Or.inl rfl
  · split
    · exact Or.inr (Or.inl rfl)
    · split
      · exact Or.inr (Or.inr (Or.inl rfl))
      · split
        · exact Or.inr (Or.inr (Or.inr (Or.inl rfl)))
        · split
          · next h => exact Or.inr (Or.inr (Or.inr (Or.inr (Or.inr ⟨_, h, rfl⟩))))
          · exact Or.inr (Or.inr (Or.inr (Or.inr (Or.inl rfl))))

/-- Claim C3: when no query raises, the loop ends without exception and
the final decision is Matched (with the best candidate, its score, the
variation used and the total candidate count) exactly when the best score
is at least 65; otherwise Unmatched carrying the best score seen — which
is 0 whenever no issued query ever returned a candidate. -/
theorem c3_final_decision (name : String) (reg : String → RegistryAnswer)
    (hname : pyStrip name ≠ "")
    (hok : ∀ q, noRaise (reg q) = true) :
    resolveErr name reg = none ∧
    (65 ≤ (resolveState name reg).best_score →
      ∃ it, (resolveState name reg).best_match = some it ∧
        search_companies_house name reg =
          SearchResult.matched it (resolveState name reg).best_score
            (resolveState name reg).search_term_used
            (resolveState name reg).all_items.length) ∧
    ((resolveState name reg).best_score < 65 →
      search_companies_house name reg =
        SearchResult.unmatched (pyStrip name) (resolveState name reg).best_score
          (fallbackTerm (resolveState name reg).search_term_used)
          (resolveState name reg).all_items.length) ∧
    ((∀ q ∈ resolveQueries name reg, effItems reg q = []) →
      (resolveState name reg).best_score = 0) := by
  have herr : resolveErr name reg = none := by
    unfold resolveErr resolveRun
    exact runVariants_err_none (pyStrip name) reg hok _ _
  have hstate : stateOk (resolveState name reg) := by
    unfold resolveState resolveRun
    exact runVariants_ok (pyStrip name) reg _ initState (Or.inl ⟨rfl, rfl⟩)
  refine ⟨herr, ?_, ?_, ?_⟩
  · intro h65
    rcases hstate with ⟨_, hz⟩ | ⟨it, hit, _⟩
    · rw [hz] at h65
      omega
    · refine ⟨it, hit, ?_⟩
      rw [search_eq_of_none name reg hname herr,
        if_pos ⟨by rw [hit]; rfl, h65⟩, hit]
      rfl
  · intro h65
    rw [search_eq_of_none name reg hname herr, if_neg ?hcon]
    case hcon =>
      intro hcon
      omega
  · intro hq
    have h0 : resolveState name reg = initState := by
      unfold resolveState resolveRun
      apply runVariants_id_of_empty
      exact hq
    rw [h0]
    rfl

/-- Claim C3, witness at a concrete input: an exact-title item on the
first variation yields a Matched outcome with score 100. -/
theorem c3_witness :
    pyStrip "BBC STUDIOS LIMITED" ≠ "" ∧
    65 ≤ (resolveState "BBC STUDIOS LIMITED" regC3).best_score ∧
    (∃ it, (resolveState "BBC STUDIOS LIMITED" regC3).best_match = some it ∧
      search_companies_house "BBC STUDIOS LIMITED" regC3 =
        SearchResult.matched it (resolveState "BBC STUDIOS LIMITED" regC3).best_score
          (resolveState "BBC STUDIOS LIMITED" regC3).search_term_used
          (resolveState "BBC STUDIOS LIMITED" regC3).all_items.length) :=
  ⟨by decide, by decide,
   (c3_final_decision "BBC STUDIOS LIMITED" regC3 (by decide) (fun _ => rfl)).2.1 (by decide)⟩

/-- Claim C4: the issued queries are exactly a leading run of the
priority-ordered variation list, at most 6 queries are issued, replaying
the loop on every proper leading run of the issued queries leaves the
best score below 80 (so the loop never stopped early before reaching 80),
and if the loop ended without exception before exhausting the variations,
the best score had reached 80. -/
theorem c4_early_exit (name : String) (reg : String → RegistryAnswer) :
    ((searchVariations (pyStrip name)).take 6).take (resolveQueries name reg).length
        = resolveQueries name reg ∧
    (resolveQueries name reg).length ≤ 6 ∧
    (∀ k, k < (resolveQueries name reg).length →
      (runVariants (pyStrip name) reg ((resolveQueries name reg).take k) initState).1.best_score
        < 80) ∧
    (resolveErr name reg = none →
      (resolveQueries name reg).length < ((searchVariations (pyStrip name)).take 6).length →
      80 ≤ (resolveState name reg).best_score) := by
  refine ⟨?_, ?_, ?_, ?_⟩
  · unfold resolveQueries resolveRun
    exact runVariants_take _ _ _ _
  · unfold resolveQueries resolveRun
    have h := runVariants_len_le (pyStrip name) reg
      ((searchVariations (pyStrip name)).take 6) initState
    have h2 : ((searchVariations (pyStrip name)).take 6).length ≤ 6 := by
      rw [List.length_take]
      exact Nat.min_le_left 6 _
    omega
  · intro k hk
    unfold resolveQueries resolveRun at hk ⊢
    exact (runVariants_replay (pyStrip name) reg _ initState (by decide) k hk).1
  · intro herr hlen
    unfold resolveErr resolveRun at herr
    unfold resolveQueries resolveRun at hlen
    unfold resolveState resolveRun
    exact runVariants_stop _ _ _ _ herr hlen

set_option maxHeartbeats 1600000 in
/-- Claim C4, witness at a concrete input: with 4 variations and an
85-scoring candidate on the 3rd, exactly 3 queries are issued and the
loop stops with best score 85 ≥ 80; after 2 queries the best score was
still below 80. -/
theorem c4_witness :
    resolveQueries "ACME & CO LTD" regC4 =
      ["ACME & CO LTD", "ACME & CO", "ACME & CO LIMITED"] ∧
    2 < (resolveQueries "ACME & CO LTD" regC4).length ∧
    (runVariants (pyStrip "ACME & CO LTD") regC4
        ((resolveQueries "ACME & CO LTD" regC4).take 2) initState).1.best_score < 80 ∧
    resolveErr "ACME & CO LTD" regC4 = none ∧
    (resolveQueries "ACME & CO LTD" regC4).length <
      ((searchVariations (pyStrip "ACME & CO LTD")).take 6).length ∧
    80 ≤ (resolveState "ACME & CO LTD" regC4).best_score := by
  refine ⟨by decide, by decide, ?_, by decide, by decide, ?_⟩
  · exact (c4_early_exit "ACME & CO LTD" regC4).2.2.1 2 (by decide)
  · exact (c4_early_exit "ACME & CO LTD" regC4).2.2.2 (by decide) (by decide)

set_option maxHeartbeats 1600000 in
/-- Claim C5, counterexample: for "A LTD LIMITED" the suffix loop strips
two suffix tokens (first "LIMITED", then "LTD"), producing "A" — while no
single application of the per-token strip to the upper-cased name yields
"A", and the name is not "A" unchanged either.  So more than one suffix
occurrence is removed, contradicting "at most one". -/
theorem c5_counterexample :
    nameClean "A LTD LIMITED" = "A" ∧
    pyUpper "A LTD LIMITED" ≠ "A" ∧
    (suffixesList.all fun suf => stripOneSuffix (pyUpper "A LTD LIMITED") suf != "A") = true := by
  decide

/-- Claim C5, amended: `name_clean` is the fold of the per-token strip
over the suffix list in source order, and each per-token step removes at
most one trailing occurrence of its token — the trailing space-delimited
match is checked first, and the direct suffix match only fires when the
space-delimited one does not; hence several distinct tokens may be
stripped in sequence across the loop. -/
theorem c5_suffix_strip (s suf : String) :
    nameClean s = List.foldl stripOneSuffix (pyUpper s) suffixesList ∧
    (stripOneSuffix s suf = s ∨
     (∃ mid : String, s = mid ++ " " ++ suf ∧ stripOneSuffix s suf = pyStrip mid) ∨
     (pyEndsWith s (" " ++ suf) = false ∧
      ∃ mid : String, s = mid ++ suf ∧ stripOneSuffix s suf = pyStrip mid)) :=
  ⟨rfl, stripOneSuffix_cases s suf⟩

set_option maxHeartbeats 1600000 in
/-- Claim C6, counterexample: for "THE A . B GROUP" the punctuation-free
variant is "THE A  B" — it is derived from `name_clean` ("THE A . B"),
not from the THE-stripped form ("A . B") although that form was produced,
and it contains a doubled space; the variant "A B" the claim predicts is
absent from the variation list. -/
theorem c6_counterexample :
    searchVariations "THE A . B GROUP" =
      ["THE A . B GROUP", "THE A . B", "THE A . B LIMITED", "THE A . B LTD",
       "A . B", "THE A  B"] ∧
    "A B" ∉ searchVariations "THE A . B GROUP" ∧
    cleanNoPunct "THE A . B GROUP" = "THE A  B" := by
  decide

/-- Claim C6, amended: the punctuation-free variant is computed from
`name_clean` — the suffix-stripped upper-cased form, which does not
include the THE-prefix removal — and every one of its characters is
alphanumeric or a space (runs of spaces are preserved, not collapsed). -/
theorem c6_no_punct (original : String) :
    cleanNoPunct original =
      String.mk ((nameClean original).data.filter (fun c => c.isAlphanum || c == ' ')) ∧
    ∀ c ∈ (cleanNoPunct original).data, c.isAlphanum = true ∨ c = ' ' := by
  have h1 : cleanNoPunct original =
      String.mk ((nameClean original).data.filter (fun c => c.isAlphanum || c == ' ')) := rfl
  refine ⟨h1, ?_⟩
  intro c hc
  rw [h1, dataStrMk] at hc
  have hp := List.of_mem_filter hc
  rcases (Bool.or_eq_true _ _).mp hp with h | h
  · exact Or.inl h
  · exact Or.inr (beq_iff_eq.mp h)

/-- Claim C6, witness at a concrete input. -/
theorem c6_witness :
    'A' ∈ (cleanNoPunct "A.B").data ∧ ('A'.isAlphanum = true ∨ 'A' = ' ') :=
  ⟨by decide, (c6_no_punct "A.B").2 'A' (by decide)⟩

/-- Claim C7: for a raw name whose stripped form is non-empty, the
variation list is non-empty, begins with the stripped raw name, and that
first entry is itself non-empty. -/
theorem c7_first_variant (raw : String) (h : pyStrip raw ≠ "") :
    searchVariations (pyStrip raw) ≠ [] ∧
    (searchVariations (pyStrip raw)).head? = some (pyStrip raw) ∧
    (searchVariations (pyStrip raw)).head? ≠ some "" := by
  obtain ⟨t, ht⟩ := searchVariations_cons (pyStrip raw)
  rw [ht]
  refine ⟨List.cons_ne_nil _ _, rfl, ?_⟩
  intro hcon
  exact h (by simpa using hcon)

/-- Claim C7, witness at a concrete input. -/
theorem c7_witness :
    pyStrip "  ACME LTD  " ≠ "" ∧
    (searchVariations (pyStrip "  ACME LTD  ") ≠ [] ∧
     (searchVariations (pyStrip "  ACME LTD  ")).head? = some (pyStrip "  ACME LTD  ") ∧
     (searchVariations (pyStrip "  ACME LTD  ")).head? ≠ some "") :=
  ⟨by decide, c7_first_variant "  ACME LTD  " (by decide)⟩

/-- When the loop aborted with an exception, the search result is the
error dictionary carrying that exception's message. -/
theorem search_eq_failed_of_some (name : String) (reg : String → RegistryAnswer)
    (e : PyExc) (hname : pyStrip name ≠ "") (h : resolveErr name reg = some e) :
    search_companies_house name reg = SearchResult.failed (excMsg e) := by
  have hrun : resolveRun name reg =
      (resolveState name reg, resolveQueries name reg, some e) := by
    rw [← h]
    rfl
  cases e with
  | network m =>
    unfold search_companies_house
    rw [if_neg hname, hrun]
    rfl
  | unexpected m =>
    unfold search_companies_house
    rw [if_neg hname, hrun]
    rfl

/-- Claim C8: with the cancellation flag never set, every row is
processed — the batch result has one entry per row, in order, each
carrying that row's (total, never-thrown) resolution outcome; and
whenever any issued query of a row's resolution raises a transport OR
unexpected exception, that row's whole resolution fails immediately with
that exception's reason: the loop aborts with it, the raising query is
the last one issued (no further variants are queried, every earlier
query had returned an HTTP response), the search result is the error
dictionary, and the reason is recorded in the row's `ch_error` field. -/
theorem c8_row_isolation (rows : List Row) (col : String) (reg : String → RegistryAnswer)
    (cancelAt : Nat) (hc : rows.length ≤ cancelAt) :
    process_companies rows col reg cancelAt =
      rows.map (fun r => mkResultRow r (search_companies_house (getCol r col) reg)) ∧
    (∀ r ∈ rows, ∀ (q : String) (e : PyExc), pyStrip (getCol r col) ≠ "" →
      q ∈ resolveQueries (getCol r col) reg →
      excOf (reg q) = some e →
      resolveErr (getCol r col) reg = some e ∧
      search_companies_house (getCol r col) reg = SearchResult.failed (excMsg e) ∧
      (∃ pre, resolveQueries (getCol r col) reg = pre ++ [q] ∧
        ∀ p ∈ pre, excOf (reg p) = none) ∧
      (mkResultRow r (search_companies_house (getCol r col) reg)).ch_error = excMsg e) := by
  constructor
  · unfold process_companies
    rw [processGo_take, Nat.sub_zero, List.take_of_length_le hc]
  · intro r _ q e hname hq he
    have hq' : q ∈ (runVariants (pyStrip (getCol r col)) reg
        ((searchVariations (pyStrip (getCol r col))).take 6) initState).2.1 := by
      unfold resolveQueries resolveRun at hq
      exact hq
    obtain ⟨herr, pre, hpre, hall⟩ := runVariants_raise_abort (pyStrip (getCol r col)) reg
      ((searchVariations (pyStrip (getCol r col))).take 6) initState q e hq' he
    have herr' : resolveErr (getCol r col) reg = some e := by
      unfold resolveErr resolveRun
      exact herr
    have hs := search_eq_failed_of_some (getCol r col) reg e hname herr'
    refine ⟨herr', hs, ⟨pre, ?_, hall⟩, ?_⟩
    · unfold resolveQueries resolveRun
      exact hpre
    · rw [hs]
      rfl

set_option maxHeartbeats 1600000 in
/-- Claim C8, witness at a concrete input: an unexpected exception on
the SECOND issued query of the single row's resolution aborts that
resolution right there with the Unexpected-error reason recorded, while
the batch still emits the row's outcome. -/
theorem c8_witness :
    ([rowC8] : List Row).length ≤ 3 ∧
    pyStrip (getCol rowC8 "name") ≠ "" ∧
    "ACME" ∈ resolveQueries (getCol rowC8 "name") regC8 ∧
    excOf (regC8 "ACME") = some (PyExc.unexpected "kaboom") ∧
    process_companies [rowC8] "name" regC8 3 =
      [rowC8].map (fun r => mkResultRow r (search_companies_house (getCol r "name") regC8)) ∧
    resolveErr (getCol rowC8 "name") regC8 = some (PyExc.unexpected "kaboom") ∧
    search_companies_house (getCol rowC8 "name") regC8 =
      SearchResult.failed (excMsg (PyExc.unexpected "kaboom")) ∧
    (mkResultRow rowC8 (search_companies_house (getCol rowC8 "name") regC8)).ch_error =
      excMsg (PyExc.unexpected "kaboom") := by
  have h := c8_row_isolation [rowC8] "name" regC8 3 (by decide)
  have h2 := h.2 rowC8 (List.mem_singleton.mpr rfl) "ACME" (PyExc.unexpected "kaboom")
    (by decide) (by decide) (by decide)
  exact ⟨by decide, by decide, by decide, by decide, h.1, h2.1, h2.2.1, h2.2.2.2⟩

/-- Claim C9: the batch runner checks the (monotone) cancellation flag
only before each row; with the flag first reading true at row index
`cancelAt`, the output is exactly the per-row outcomes of the first
`cancelAt` rows, in original input order, with no error — a prefix of
length `min cancelAt rows.length`. -/
theorem c9_cancellation (rows : List Row) (col : String) (reg : String → RegistryAnswer)
    (cancelAt : Nat) :
    process_companies rows col reg cancelAt =
      (rows.take cancelAt).map
        (fun r => mkResultRow r (search_companies_house (getCol r col) reg)) ∧
    (process_companies rows col reg cancelAt).length = min cancelAt rows.length := by
  have h1 : process_companies rows col reg cancelAt =
      (rows.take cancelAt).map
        (fun r => mkResultRow r (search_companies_house (getCol r col) reg)) := by
    unfold process_companies
    rw [processGo_take, Nat.sub_zero]
  refine ⟨h1, ?_⟩
  rw [h1, List.length_map, List.length_take]

/-- Claim C10: every scored candidate receives at least 50; an Unmatched
outcome therefore carries a best score that is either 0 or at least 50
(never strictly between 1 and 49); and as soon as any issued query
returns a candidate, the loop's best score is at least 50. -/
theorem c10_score_floor :
    (∀ (orig : String) (it : Item), 50 ≤ scoreMatch orig it) ∧
    (∀ (name o t : String) (reg : String → RegistryAnswer) (b n : Nat),
      search_companies_house name reg = SearchResult.unmatched o b t n →
      b = 0 ∨ 50 ≤ b) ∧
    (∀ (name : String) (reg : String → RegistryAnswer),
      (∃ q ∈ resolveQueries name reg, effItems reg q ≠ []) →
      50 ≤ (resolveState name reg).best_score) := by
  refine ⟨scoreMatch_ge_fifty, ?_, ?_⟩
  · intro name o t reg b n h
    by_cases hname : pyStrip name = ""
    · have hs : search_companies_house name reg = SearchResult.failed "Empty company name" := by
        unfold search_companies_house
        rw [if_pos hname]
      rw [hs] at h
      simp at h
    · cases herr : resolveErr name reg with
      | some e =>
        have hs := search_eq_failed_of_some name reg e hname herr
        rw [hs] at h
        simp at h
      | none =>
        have hstate : stateOk (resolveState name reg) := by
          unfold resolveState resolveRun
          exact runVariants_ok (pyStrip name) reg _ initState (Or.inl ⟨rfl, rfl⟩)
        rw [search_eq_of_none name reg hname herr] at h
        split at h
        · simp at h
        · injection h with h1 h2 h3 h4
          rcases hstate with ⟨_, hz⟩ | ⟨it, _, h50⟩
          · left
            omega
          · right
            omega
  · intro name reg h
    obtain ⟨q, hq, hne⟩ := h
    unfold resolveQueries resolveRun at hq
    unfold resolveState resolveRun
    exact runVariants_fifty (pyStrip name) reg _ initState q hq hne

/-- Claim C10, witness at a concrete input: a single weakly-matching
candidate yields an Unmatched outcome carrying exactly 50. -/
theorem c10_witness :
    search_companies_house "ACME" regC10 = SearchResult.unmatched "ACME" 50 "ACME" 1 ∧
    ((50 : Nat) = 0 ∨ 50 ≤ (50 : Nat)) ∧
    (∃ q ∈ resolveQueries "ACME" regC10, effItems regC10 q ≠ []) ∧
    50 ≤ (resolveState "ACME" regC10).best_score := by
  refine ⟨by decide, ?_, by decide, ?_⟩
  · exact c10_score_floor.2.1 "ACME" "ACME" "ACME" regC10 50 1 (by decide)
  · exact c10_score_floor.2.2 "ACME" regC10 (by decide)
